import Mathlib

/-!
Shallow embedding of the lead-qualification agent (`tools.py`, `router.py`,
`agent_automated.py`) and proofs about it.

Modelling conventions:
* Python strings are Lean `String`s; character-level operations
  (`strip`, `split('\n')`, `find`, `rfind`, slicing, `replace`) are
  implemented on `List Char` exactly following Python's semantics
  (whitespace restricted to the ASCII whitespace characters).
* The language model and the SMTP transport are external boundaries:
  their per-call results are supplied as oracles (a stub function for
  `call_llm` attempts, a JSON-decoding function for `json.loads`, and a
  per-lead outcome record for the automated driver).
* `sys.exit(0)` is modelled by the driver halting and flagging `exited`.
* Pandas state tables are `List LeadRow`; `datetime.now()` is an explicit
  `now : Nat` argument threaded to each state write.
-/

namespace LeadAgent

/-! ## Python character-level primitives -/

/-- ASCII whitespace as stripped by Python's `str.strip()`. -/
def isPyWS (c : Char) : Bool :=
  c = ' ' ∨ c = '\t' ∨ c = '\n' ∨ c = '\r' ∨ c = '\x0b' ∨ c = '\x0c'

/-- Python `str.strip()` on a character list. -/
def pyStrip (l : List Char) : List Char :=
  ((l.dropWhile isPyWS).reverse.dropWhile isPyWS).reverse

/-- Python `s.split('\n')` (accumulator holds the current line reversed). -/
def splitLinesAux : List Char → List Char → List (List Char)
  | [], acc => [acc.reverse]
  | c :: rest, acc =>
    if c = '\n' then acc.reverse :: splitLinesAux rest []
    else splitLinesAux rest (c :: acc)

/-- Python `'\n'.join(lines)` on character lists. -/
def joinLines : List (List Char) → List Char
  | [] => []
  | [l] => l
  | l :: ls => l ++ '\n' :: joinLines ls

/-- Python `s.find(c)`: index of the first occurrence, `-1` if absent. -/
def pyFind (s : String) (c : Char) : Int :=
  match List.indexOf? c s.toList with
  | some i => (i : Int)
  | none => -1

/-- Python `s.rfind(c)`: index of the last occurrence, `-1` if absent. -/
def pyRFind (s : String) (c : Char) : Int :=
  match List.indexOf? c s.toList.reverse with
  | some i => (s.length : Int) - 1 - (i : Int)
  | none => -1

/-- Python slice `s[a:b]` for `0 ≤ a ≤ b`. -/
def pySlice (s : String) (a b : Int) : String :=
  String.mk ((s.toList.drop a.toNat).take (b - a).toNat)

/-! ## `tools.py` -/

/-- One row of the `data/state.csv` lead-state table
(`lead_id, status, follow_up_count, last_contact, next_action`). -/
structure LeadRow where
  lead_id : Nat
  status : String
  follow_up_count : Nat
  last_contact : Nat
  next_action : String
deriving DecidableEq, Repr

/-- Embeds `tools.update_lead_state`: upsert one lead's row.  If a row with this
`lead_id` exists, every matching row gets the new `status`/`next_action`,
`last_contact := now` and `follow_up_count + 1` (pandas `.loc` updates all
matches); otherwise a fresh row with `follow_up_count = 1` is appended. -/
def update_lead_state (now : Nat) (lead_id : Nat) (status : String)
    (next_action : String) (state : List LeadRow) : List LeadRow :=
  if state.any (fun r => r.lead_id == lead_id) then
    state.map (fun r =>
      if r.lead_id == lead_id then
        { r with status := status, follow_up_count := r.follow_up_count + 1,
                 last_contact := now, next_action := next_action }
      else r)
  else
    state ++ [⟨lead_id, status, 1, now, next_action⟩]

/-- The classification record the model is prompted to emit
(`category, intent, urgency, concerns, next_action, reasoning`). -/
structure Classification where
  category : String
  intent : String
  urgency : String
  concerns : List String
  next_action : String
  reasoning : String
deriving DecidableEq, Repr

/-- Embeds `tools.parse_json_response`: slice from the first `{` to the last `}`
(inclusive) and hand the slice to the JSON decoder (`json.loads`, supplied
as the boundary oracle `jsonLoads`, `none` meaning `JSONDecodeError`);
return `None` when no such well-ordered pair of braces exists. -/
def parse_json_response (jsonLoads : String → Option Classification)
    (response_text : String) : Option Classification :=
  let start := pyFind response_text '\x7b'
  let stop := pyRFind response_text '\x7d' + 1
  if start ≠ -1 ∧ stop > start then
    jsonLoads (pySlice response_text start stop)
  else
    none

/-- Embeds `tools.send_email`: `False` when `EMAIL_SENDER`/`EMAIL_PASSWORD` are not
configured; otherwise the SMTP round trip (boundary oracle `smtpSend`)
decides: any raised SMTP/other exception is caught and yields `False`,
success yields `True`.  No retry of any kind. -/
def send_email (credsConfigured : Bool) (smtpSend : Except String Unit) : Bool :=
  if ¬ credsConfigured then false
  else
    match smtpSend with
    | .ok _ => true
    | .error _ => false

/-- The pattern `"Subject:"` as a character list. -/
def subjectPat : List Char := "Subject:".toList

/-- Python `line.replace("Subject:", "")`: remove every (left-to-right,
non-overlapping) occurrence of `"Subject:"`. -/
def replaceSubjectAll : List Char → List Char
  | 'S' :: 'u' :: 'b' :: 'j' :: 'e' :: 'c' :: 't' :: ':' :: rest =>
    replaceSubjectAll rest
  | c :: rest => c :: replaceSubjectAll rest
  | [] => []

/-- The loop body of `tools.parse_email_content`, carrying
`(subject, body_lines, found_subject)` exactly as the Python loop does
(the final `else` branch is unreachable, as in the source). -/
def parseEmailLoop : List (List Char) → List Char → List (List Char) → Bool →
    List Char × List (List Char)
  | [], subject, body_lines, _ => (subject, body_lines)
  | line :: rest, subject, body_lines, found =>
    if subjectPat.isPrefixOf line then
      parseEmailLoop rest (pyStrip (replaceSubjectAll line)) body_lines true
    else if found || ! subjectPat.isPrefixOf line then
      parseEmailLoop rest subject (body_lines ++ [line]) found
    else
      parseEmailLoop rest subject body_lines found

/-- Embeds `tools.parse_email_content`: strip the draft, split into lines, run the
subject-extraction loop (default subject `"Follow-up on your inquiry"`),
join the collected body lines and strip the result. -/
def parse_email_content (draft_email : String) : String × String :=
  let lines := splitLinesAux (pyStrip draft_email.toList) []
  let p := parseEmailLoop lines "Follow-up on your inquiry".toList [] false
  (String.mk p.1, String.mk (pyStrip (joinLines p.2)))

/-! ## `router.py` -/

/-- Python's `str.lower()` (character-wise). -/
def lowerStr (s : String) : String := String.mk (s.toList.map Char.toLower)

/-- Python substring test `sub in l`. -/
def containsSub (sub : List Char) (l : List Char) : Bool :=
  l.tails.any (fun t => sub.isPrefixOf t)

/-- The trivial patterns of `router.route_request`. -/
def trivial_patterns : List String := ["hi", "hello", "thanks", "thank you", "bye"]

/-- The heavy-reasoning patterns of `router.route_request`. -/
def heavy_patterns : List String :=
  ["analyze", "compare", "research", "plan", "strategy", "summarize document"]

/-- Embeds `router.route_request`: lowercase the message, try trivial patterns
first, then heavy-reasoning patterns, else the default small model. -/
def route_request (user_message : String) : String :=
  let msg := lowerStr user_message
  if trivial_patterns.any (fun p => containsSub p.toList msg.toList) then
    "rule_based"
  else if heavy_patterns.any (fun p => containsSub p.toList msg.toList) then
    "big_model"
  else
    "small_model"

/-! ## `agent_automated.py` — the agent -/

/-- Python truthiness of `call_llm`'s result at `if response:`:
`None` and the empty string are falsy. -/
def truthy : Option String → Bool
  | none => false
  | some s => s ≠ ""

/-- Embeds `LeadQualificationAgent.call_llm` from attempt number `attempt` with
`max_retries = maxRetries`.  The boundary oracle `stub` gives each
attempt's outcome: `none` models an exception or an empty/choice-less
response (both reach the same `except` branch), `some text` a response
whose first choice's content is `text`.  Returns
`(result, attempts made, sleep durations in seconds)`; after a failed
non-final attempt the loop sleeps `2 ^ attempt` seconds, after the final
failed attempt it returns `None` with no sleep. -/
def call_llm_from (stub : Nat → Option String) :
    Nat → Nat → Option String × Nat × List Nat
  | 0, attempt => (none, attempt, [])
  | remaining + 1, attempt =>
    match stub attempt with
    | some text => (some text, attempt + 1, [])
    | none =>
      if remaining = 0 then
        (none, attempt + 1, [])
      else
        let r := call_llm_from stub remaining (attempt + 1)
        (r.1, r.2.1, 2 ^ attempt :: r.2.2)

/-- Full `call_llm`: `max_retries = 3`, starting at attempt 0 with all
3 attempts remaining (`remaining = max_retries − attempt`, so the
`remaining = 0` test inside an iteration is the source's
`attempt == max_retries − 1`). -/
def call_llm (stub : Nat → Option String) : Option String × Nat × List Nat :=
  call_llm_from stub 3 0

/-- The fixed fallback classification of
`LeadQualificationAgent.classify_lead`. -/
def fallback_classification : Classification :=
  ⟨"Warm", "Unknown", "Unknown", [], "Manual review needed",
   "Automated classification failed"⟩

/-- Embeds `LeadQualificationAgent.classify_lead`, as a function of the
`call_llm` result for the classification prompt: if the response is truthy
and yields a parsed classification, return it; otherwise the fixed
fallback. -/
def classify_lead (jsonLoads : String → Option Classification)
    (response : Option String) : Classification :=
  if truthy response then
    match parse_json_response jsonLoads (response.getD "") with
    | some c => c
    | none => fallback_classification
  else
    fallback_classification

/-! ## `agent_automated.py` — the automated driver -/

/-- Configuration of the automated driver:
`AUTO_SEND_EMAILS`, `AUTO_APPROVE_THRESHOLD`, `EMAIL_BATCH_SIZE`. -/
structure AutoConfig where
  autoSend : Bool
  threshold : String
  batchSize : Nat
deriving DecidableEq, Repr

/-- The auto-send gate of `auto_process_leads` (lines 173–182): the
`send_email_flag` computed from `AUTO_SEND_EMAILS`,
`AUTO_APPROVE_THRESHOLD` and the classification category. -/
def shouldSend (autoSend : Bool) (threshold category : String) : Bool :=
  if autoSend then
    if threshold = "Hot" ∧ category = "Hot" then true
    else if threshold = "Warm" ∧ (category = "Hot" ∨ category = "Warm") then true
    else if threshold = "Cold" then true
    else false
  else
    false

/-- Where, if anywhere, an unhandled exception is raised inside one lead's
`try` block: `ok` = none; `inProcessLead` = before the classifier runs
(e.g. a missing lead field); `inSaveDraft` = in `save_draft`, after both
model calls. -/
inductive ErrStage where
  | ok
  | inProcessLead
  | inSaveDraft
deriving DecidableEq, Repr

/-- One lead of the batch together with its external outcomes: the
classification `category` and `next_action` that `classify_lead` returns
for it, whether `send_email` would return `True` for it, and whether its
pipeline raises. -/
structure AutoLead where
  lead_id : Nat
  category : String
  next_action : String
  sendOk : Bool
  err : ErrStage
deriving DecidableEq, Repr

/-- Observable per-lead side effects of the driver: a classifier call, a
drafter call, a draft-file save, a `send_email` call. -/
inductive Event where
  | classifyEv (id : Nat)
  | draftEv (id : Nat)
  | saveDraftEv (id : Nat)
  | sendEv (id : Nat)
deriving DecidableEq, Repr

/-- The lead id an event belongs to. -/
def eventId : Event → Nat
  | .classifyEv i => i
  | .draftEv i => i
  | .saveDraftEv i => i
  | .sendEv i => i

/-- Returns `true` exactly on `send_email` invocations. -/
def isSendEv : Event → Bool
  | .sendEv _ => true
  | _ => false

/-- Result of processing one lead inside the batch loop: either the loop
continues with an updated table and counter, or the process terminates
(`sys.exit(0)` on the batch ceiling). -/
inductive StepRes where
  | next (tbl : List LeadRow) (sent : Nat) (events : List Event)
  | halt (tbl : List LeadRow) (sent : Nat) (events : List Event)
deriving DecidableEq, Repr

/-- One iteration of the `for` loop of `auto_process_leads` (lines
164–225) on lead `l`, with state table `tbl` and session send counter
`sent`.  An exception anywhere in the `try` block is caught: nothing is
written for the lead and the loop continues. -/
def processOne (cfg : AutoConfig) (now : Nat) (l : AutoLead)
    (tbl : List LeadRow) (sent : Nat) : StepRes :=
  match l.err with
  | .inProcessLead => .next tbl sent []
  | .inSaveDraft => .next tbl sent [.classifyEv l.lead_id, .draftEv l.lead_id]
  | .ok =>
    let evs := [Event.classifyEv l.lead_id, Event.draftEv l.lead_id,
                Event.saveDraftEv l.lead_id]
    if shouldSend cfg.autoSend cfg.threshold l.category then
      let evs := evs ++ [Event.sendEv l.lead_id]
      if l.sendOk then
        let sent' := sent + 1
        if sent' ≥ cfg.batchSize then
          .halt (update_lead_state now l.lead_id "approved_sent" l.next_action tbl)
            sent' evs
        else
          .next (update_lead_state now l.lead_id "approved_sent" l.next_action tbl)
            sent' evs
      else
        .next (update_lead_state now l.lead_id "approved" l.next_action tbl)
          sent evs
    else
      .next (update_lead_state now l.lead_id "approved" l.next_action tbl)
        sent evs

/-- Outcome of a whole automated run: final state table, session send
counter, whether the process exited on the batch ceiling, and the trace of
per-lead side effects. -/
structure RunResult where
  table : List LeadRow
  sent : Nat
  exited : Bool
  trace : List Event
deriving DecidableEq, Repr

/-- The batch loop of `auto_process_leads` over the (already filtered)
lead list. -/
def runLeads (cfg : AutoConfig) (now : Nat) :
    List AutoLead → List LeadRow → Nat → RunResult
  | [], tbl, sent => ⟨tbl, sent, false, []⟩
  | l :: rest, tbl, sent =>
    match processOne cfg now l tbl sent with
    | .halt t s ev => ⟨t, s, true, ev⟩
    | .next t s ev =>
      let r := runLeads cfg now rest t s
      ⟨r.table, r.sent, r.exited, ev ++ r.trace⟩

/-- Embeds `auto_process_leads`: return early when there are no leads; otherwise
filter out every lead whose `lead_id` is already present in the state
table, return early when nothing is new, and run the batch loop with the
session counter at its process-start value 0. -/
def auto_process_leads (cfg : AutoConfig) (now : Nat) (leads : List AutoLead)
    (state0 : List LeadRow) : RunResult :=
  if leads = [] then ⟨state0, 0, false, []⟩
  else
    let processed_ids := state0.map (fun r => r.lead_id)
    let new_leads := leads.filter (fun l => ! processed_ids.contains l.lead_id)
    if new_leads = [] then ⟨state0, 0, false, []⟩
    else runLeads cfg now new_leads state0 0

/-- The state table a step leaves behind. -/
def StepRes.tblOf : StepRes → List LeadRow
  | .next t _ _ => t
  | .halt t _ _ => t

/-- The send counter a step leaves behind. -/
def StepRes.sentOf : StepRes → Nat
  | .next _ s _ => s
  | .halt _ s _ => s

/-- The side-effect events a step emits. -/
def StepRes.events : StepRes → List Event
  | .next _ _ ev => ev
  | .halt _ _ ev => ev

/-- Number of `send_email` invocations for one lead id in a trace. -/
def countSendEv (id : Nat) (tr : List Event) : Nat :=
  (tr.filter (fun e => isSendEv e && (eventId e == id))).length

/-- Iterated `update_lead_state` for one `lead_id`: each triple is one
upsert's `(status, next_action, now)`. -/
def upsertSeq (lead_id : Nat) : List (String × String × Nat) → List LeadRow →
    List LeadRow
  | [], s => s
  | p :: rest, s =>
    upsertSeq lead_id rest (update_lead_state p.2.2 lead_id p.1 p.2.1 s)

/-! ## Theorems -/

/-- Claim C1. With auto-send enabled the gate follows the spec's truth table
on all 9 (threshold × category) pairs; with auto-send disabled the
decision is `false` for every category and threshold, and the driver then
still saves the draft (the `save_draft` event is emitted) and records the
lead as `approved`. -/
theorem dispatch_gate_truth_table :
    (shouldSend true "Hot" "Hot" = true ∧ shouldSend true "Hot" "Warm" = false ∧
      shouldSend true "Hot" "Cold" = false ∧
      shouldSend true "Warm" "Hot" = true ∧ shouldSend true "Warm" "Warm" = true ∧
      shouldSend true "Warm" "Cold" = false ∧
      shouldSend true "Cold" "Hot" = true ∧ shouldSend true "Cold" "Warm" = true ∧
      shouldSend true "Cold" "Cold" = true) ∧
    (∀ threshold category, shouldSend false threshold category = false) ∧
    (∀ cfg now l tbl sent, cfg.autoSend = false → l.err = .ok →
      processOne cfg now l tbl sent =
        .next (update_lead_state now l.lead_id "approved" l.next_action tbl) sent
          [.classifyEv l.lead_id, .draftEv l.lead_id, .saveDraftEv l.lead_id]) := by
  refine ⟨by decide, fun t c => rfl, fun cfg now l tbl sent hAuto hErr => ?_⟩
  simp [processOne, hErr, shouldSend, hAuto]

/-- Witness for C1 at a concrete disabled configuration. -/
theorem dispatch_gate_truth_table_witness :
    processOne ⟨false, "Hot", 2⟩ 3 ⟨1, "Hot", "call", true, .ok⟩ [] 0 =
      .next (update_lead_state 3 1 "approved" "call" []) 0
        [.classifyEv 1, .draftEv 1, .saveDraftEv 1] :=
  dispatch_gate_truth_table.2.2 ⟨false, "Hot", 2⟩ 3 ⟨1, "Hot", "call", true, .ok⟩
    [] 0 rfl rfl

/-- Claim C5. The function `classify_lead` is total and returns either the parse result
or the fixed fallback; whenever the call result is not usable text
(`None` or empty) or no classification can be parsed from it, the result
is exactly the fixed fallback. -/
theorem classify_lead_fallback :
    ∀ (jsonLoads : String → Option Classification) (response : Option String),
      (classify_lead jsonLoads response = fallback_classification ∨
        parse_json_response jsonLoads (response.getD "") =
          some (classify_lead jsonLoads response)) ∧
      ((truthy response = false ∨
          parse_json_response jsonLoads (response.getD "") = none) →
        classify_lead jsonLoads response = fallback_classification) := by
  intro jsonLoads response
  unfold classify_lead
  by_cases ht : truthy response
  · cases hp : parse_json_response jsonLoads (response.getD "") with
    | none => simp [ht, hp]
    | some c =>
      refine ⟨Or.inr (by simp [ht, hp]), ?_⟩
      rintro (h | h)
      · simp [ht] at h
      · simp [hp] at h
  · simp [ht]

/-- Witness for C5: an always-failing decoder and a `None` call result
yield the fixed fallback. -/
theorem classify_lead_fallback_witness :
    classify_lead (fun _ => none) none = fallback_classification :=
  (classify_lead_fallback (fun _ => none) none).2 (Or.inl rfl)

/-- Claim C6. The wrapper `call_llm` makes at most 3 attempts; when all attempts fail it
makes exactly 3, sleeps 1 s then 2 s after the two non-final failures (no
sleep after the last) and returns `None`; when a stub fails twice then
succeeds it makes exactly 3 attempts, sleeps the same 1 s and 2 s, and
returns the successful text. -/
theorem call_llm_retry_policy :
    ∀ stub : Nat → Option String,
      ((call_llm stub).2.1 ≤ 3) ∧
      (stub 0 = none → stub 1 = none → stub 2 = none →
        call_llm stub = (none, 3, [1, 2])) ∧
      (∀ t, stub 0 = none → stub 1 = none → stub 2 = some t →
        call_llm stub = (some t, 3, [1, 2])) := by
  intro stub
  refine ⟨?_, ?_, ?_⟩
  · cases h0 : stub 0 <;> cases h1 : stub 1 <;> cases h2 : stub 2 <;>
      simp [call_llm, call_llm_from, h0, h1, h2]
  · intro h0 h1 h2
    simp [call_llm, call_llm_from, h0, h1, h2]
  · intro t h0 h1 h2
    simp [call_llm, call_llm_from, h0, h1, h2]

/-- Witness for C6: the always-failing stub and the fails-twice stub. -/
theorem call_llm_retry_policy_witness :
    call_llm (fun _ => none) = (none, 3, [1, 2]) ∧
    call_llm (fun n => if n = 2 then some "ok" else none) =
      (some "ok", 3, [1, 2]) :=
  ⟨(call_llm_retry_policy (fun _ => none)).2.1 rfl rfl rfl,
   (call_llm_retry_policy (fun n => if n = 2 then some "ok" else none)).2.2
     "ok" rfl rfl rfl⟩

/-- Claim C10. The router `route_request` always answers one of the three route names;
trivial patterns are tested first by substring containment on the
lowercased message, so any message containing one of them — even inside a
word, as `"analyze this"` contains `"hi"` — is routed `"rule_based"`,
even when a heavy-reasoning pattern is also present. -/
theorem route_request_rule_based_first :
    (∀ m, route_request m = "rule_based" ∨ route_request m = "big_model" ∨
      route_request m = "small_model") ∧
    (∀ m, trivial_patterns.any
        (fun p => containsSub p.toList (lowerStr m).toList) = true →
      route_request m = "rule_based") ∧
    (containsSub "hi".toList (lowerStr "analyze this").toList = true ∧
      containsSub "analyze".toList (lowerStr "analyze this").toList = true ∧
      route_request "analyze this" = "rule_based") := by
  refine ⟨fun m => ?_, fun m h => ?_, by decide⟩
  · simp only [route_request]
    split
    · exact Or.inl rfl
    · split
      · exact Or.inr (Or.inl rfl)
      · exact Or.inr (Or.inr rfl)
  · simp only [route_request]
    rw [h]
    simp

/-- Witness for C10 at the message `"hi"`. -/
theorem route_request_rule_based_first_witness :
    route_request "hi" = "rule_based" :=
  route_request_rule_based_first.2.1 "hi" (by decide)

/-! ### Helper lemmas for the email content parser -/

lemma dropWhile_head?_not (p : Char → Bool) :
    ∀ l : List Char, ∀ c, (l.dropWhile p).head? = some c → p c = false := by
  intro l
  induction l with
  | nil => intro c h; simp at h
  | cons a rest ih =>
    intro c h
    by_cases hp : p a
    · rw [List.dropWhile_cons_of_pos hp] at h
      exact ih c h
    · rw [List.dropWhile_cons_of_neg hp] at h
      simp at h
      rw [← h]
      exact Bool.eq_false_iff.mpr hp

lemma dropWhile_eq_self_of_head? (p : Char → Bool) (l : List Char)
    (h : ∀ c, l.head? = some c → p c = false) : l.dropWhile p = l := by
  cases l with
  | nil => rfl
  | cons a rest =>
    have := h a rfl
    rw [List.dropWhile_cons_of_neg (by simp [this])]

lemma getLast?_dropWhile (p : Char → Bool) :
    ∀ l : List Char,
      (l.dropWhile p).getLast? = l.getLast? ∨ l.dropWhile p = [] := by
  intro l
  induction l with
  | nil => exact Or.inr rfl
  | cons a rest ih =>
    by_cases hp : p a
    · rw [List.dropWhile_cons_of_pos hp]
      rcases ih with h | h
      · cases rest with
        | nil => exact Or.inr rfl
        | cons b rest' => exact Or.inl (h.trans (List.getLast?_cons_cons).symm)
      · exact Or.inr h
    · rw [List.dropWhile_cons_of_neg hp]
      exact Or.inl rfl

lemma pyStrip_idem (l : List Char) : pyStrip (pyStrip l) = pyStrip l := by
  unfold pyStrip
  set t := l.dropWhile isPyWS with ht
  set v := t.reverse.dropWhile isPyWS with hv
  have hv_head : ∀ c, v.head? = some c → isPyWS c = false :=
    fun c hc => dropWhile_head?_not isPyWS t.reverse c hc
  have hy_head : ∀ c, v.reverse.head? = some c → isPyWS c = false := by
    intro c hc
    rw [List.head?_reverse] at hc
    rcases getLast?_dropWhile isPyWS t.reverse with h | h
    · rw [← hv] at h
      rw [h, List.getLast?_reverse] at hc
      exact dropWhile_head?_not isPyWS l c (ht ▸ hc)
    · rw [← hv] at h
      rw [h] at hc
      simp at hc
  rw [dropWhile_eq_self_of_head? isPyWS v.reverse hy_head, List.reverse_reverse,
    dropWhile_eq_self_of_head? isPyWS v hv_head]

lemma splitLinesAux_ne_nil : ∀ (l acc : List Char), splitLinesAux l acc ≠ [] := by
  intro l
  induction l with
  | nil => intro acc; simp [splitLinesAux]
  | cons c rest ih =>
    intro acc
    by_cases hc : c = '\n'
    · simp [splitLinesAux, hc]
    · simpa [splitLinesAux, hc] using ih (c :: acc)

lemma joinLines_cons (a : List Char) (ls : List (List Char)) (h : ls ≠ []) :
    joinLines (a :: ls) = a ++ '\n' :: joinLines ls := by
  cases ls with
  | nil => exact absurd rfl h
  | cons b ls' => rfl

lemma joinLines_splitLinesAux :
    ∀ (l acc : List Char), joinLines (splitLinesAux l acc) = acc.reverse ++ l := by
  intro l
  induction l with
  | nil => intro acc; simp [splitLinesAux, joinLines]
  | cons c rest ih =>
    intro acc
    by_cases hc : c = '\n'
    · rw [hc]
      show joinLines (splitLinesAux ('\n' :: rest) acc) = acc.reverse ++ '\n' :: rest
      rw [show splitLinesAux ('\n' :: rest) acc = acc.reverse :: splitLinesAux rest []
          from by simp [splitLinesAux]]
      rw [joinLines_cons _ _ (splitLinesAux_ne_nil rest []), ih []]
      simp
    · rw [show splitLinesAux (c :: rest) acc = splitLinesAux rest (c :: acc)
          from by simp [splitLinesAux, hc]]
      rw [ih (c :: acc)]
      simp

lemma parseEmailLoop_no_subject :
    ∀ (lines : List (List Char)) (subject : List Char)
      (body_lines : List (List Char)) (found : Bool),
      (∀ line ∈ lines, subjectPat.isPrefixOf line = false) →
      parseEmailLoop lines subject body_lines found =
        (subject, body_lines ++ lines) := by
  intro lines
  induction lines with
  | nil => intro subject bls found _; simp [parseEmailLoop]
  | cons line rest ih =>
    intro subject bls found h
    have hline : subjectPat.isPrefixOf line = false := h line (by simp)
    have hrest : ∀ l ∈ rest, subjectPat.isPrefixOf l = false :=
      fun l hl => h l (by simp [hl])
    rw [show parseEmailLoop (line :: rest) subject bls found =
        parseEmailLoop rest subject (bls ++ [line]) found
        from by simp [parseEmailLoop, hline]]
    rw [ih subject (bls ++ [line]) found hrest]
    simp

/-- Claim C9, counterexample. The input `"  Subject: Hi\nBody"`
contains no line starting with `"Subject:"` (its first line starts with
two spaces), yet `parse_email_content` does not return the default
subject: stripping the draft first exposes the `Subject:` prefix, so the
result is `("Hi", "Body")`, not the default subject with the whole
stripped input as body. -/
theorem parse_email_content_counterexample :
    (∀ line ∈ splitLinesAux ("  Subject: Hi\nBody".toList) [],
      subjectPat.isPrefixOf line = false) ∧
    parse_email_content "  Subject: Hi\nBody" = ("Hi", "Body") ∧
    ("Hi" : String) ≠ "Follow-up on your inquiry" := by
  refine ⟨by decide, by decide, by decide⟩

/-- Claim C9 as amended. Evaluating `parse_email_content "Subject: Hello\n\nDear X,\nBody
text"` is `("Hello", "Dear X,\nBody text")`; and for every input none of
whose lines **after stripping** starts with `"Subject:"`, the result is
the default subject `"Follow-up on your inquiry"` with the entire
stripped input as the body. -/
theorem parse_email_content_spec :
    (parse_email_content "Subject: Hello\n\nDear X,\nBody text" =
      ("Hello", "Dear X,\nBody text")) ∧
    (∀ s : String,
      (∀ line ∈ splitLinesAux (pyStrip s.toList) [],
        subjectPat.isPrefixOf line = false) →
      parse_email_content s =
        ("Follow-up on your inquiry", String.mk (pyStrip s.toList))) := by
  refine ⟨by decide, fun s h => ?_⟩
  simp only [parse_email_content]
  rw [parseEmailLoop_no_subject _ _ _ _ h]
  simp only [List.nil_append]
  rw [joinLines_splitLinesAux (pyStrip s.toList) [], List.reverse_nil,
    List.nil_append, pyStrip_idem]
  rfl

/-- Witness for C9 at a concrete subject-free input. -/
theorem parse_email_content_spec_witness :
    parse_email_content "no subject here\nline2" =
      ("Follow-up on your inquiry",
        String.mk (pyStrip "no subject here\nline2".toList)) :=
  parse_email_content_spec.2 "no subject here\nline2" (by decide)

/-! ### Helper lemmas for the state-store upsert -/

/-- The rows of the state table belonging to one `lead_id`. -/
def rowsFor (id : Nat) (s : List LeadRow) : List LeadRow :=
  s.filter (fun r => r.lead_id == id)

lemma rowsFor_update_absent (id : Nat) (s : List LeadRow) (now : Nat)
    (st na : String) (h : rowsFor id s = []) :
    rowsFor id (update_lead_state now id st na s) = [⟨id, st, 1, now, na⟩] := by
  have hany : s.any (fun r => r.lead_id == id) = false := by
    rw [List.any_eq_false]
    intro r hr
    exact List.filter_eq_nil_iff.mp h r hr
  unfold update_lead_state
  rw [hany]
  simp only [Bool.false_eq_true, if_false, rowsFor, List.filter_append]
  rw [show List.filter (fun r => r.lead_id == id) s = [] from h]
  simp [List.filter]

lemma rowsFor_update_present (id : Nat) (s : List LeadRow) (now : Nat)
    (st na : String) (r0 : LeadRow) (h : rowsFor id s = [r0]) :
    rowsFor id (update_lead_state now id st na s) =
      [⟨id, st, r0.follow_up_count + 1, now, na⟩] := by
  have hr0 : r0 ∈ s.filter (fun r => r.lead_id == id) := by
    rw [show s.filter (fun r => r.lead_id == id) = [r0] from h]; simp
  have hr0id : r0.lead_id = id := by
    have := List.of_mem_filter hr0
    simpa using this
  have hany : s.any (fun r => r.lead_id == id) = true := by
    rw [List.any_eq_true]
    exact ⟨r0, List.mem_of_mem_filter hr0, by simp [hr0id]⟩
  unfold update_lead_state
  rw [hany]
  simp only [if_true, rowsFor]
  rw [List.filter_map _ s]
  have hpf : ((fun r : LeadRow => r.lead_id == id) ∘
      (fun r : LeadRow => if r.lead_id == id then
        { r with status := st, follow_up_count := r.follow_up_count + 1,
                 last_contact := now, next_action := na }
      else r)) = (fun r : LeadRow => r.lead_id == id) := by
    funext r
    by_cases hid : r.lead_id = id <;> simp [hid]
  rw [hpf, show List.filter (fun r : LeadRow => r.lead_id == id) s = [r0] from h]
  simp [hr0id]

lemma rowsFor_upsertSeq_present (id : Nat) (st na : String) (now : Nat) :
    ∀ (ps : List (String × String × Nat)) (s : List LeadRow) (r0 : LeadRow),
      rowsFor id s = [r0] →
      rowsFor id (upsertSeq id (ps ++ [(st, na, now)]) s) =
        [⟨id, st, r0.follow_up_count + ps.length + 1, now, na⟩] := by
  intro ps
  induction ps with
  | nil =>
    intro s r0 h
    simpa [upsertSeq] using rowsFor_update_present id s now st na r0 h
  | cons q ps' ih =>
    intro s r0 h
    have h1 := rowsFor_update_present id s q.2.2 q.1 q.2.1 r0 h
    have h2 := ih (update_lead_state q.2.2 id q.1 q.2.1 s) _ h1
    simp only [upsertSeq, List.cons_append, List.append_eq]
    rw [h2]
    simp [List.cons.injEq, LeadRow.mk.injEq]
    all_goals omega

/-- Claim C4, counterexample. A state table satisfying the
claim's hypothesis (at most one row per `lead_id`) that already contains
the lead: after `N = 1` further upsert the row's `follow_up_count` is 2,
not `N = 1` — the counter keeps counting from the pre-existing value. -/
theorem upsert_counterexample :
    (([⟨1, "approved", 1, 0, "x"⟩] : List LeadRow).map
      (fun r => r.lead_id)).Nodup ∧
    upsertSeq 1 [("approved", "y", 5)] [⟨1, "approved", 1, 0, "x"⟩] =
      [⟨1, "approved", 2, 5, "y"⟩] ∧
    (2 : Nat) ≠ 1 := by
  refine ⟨by decide, by decide, by decide⟩

/-- Claim C4 as amended. Starting from a state table in which `lead_id` is
not yet present (so the first of the `N` upserts creates the row), after
`N = ps.length + 1` consecutive upserts for that `lead_id` the table has
exactly one row for it, whose `follow_up_count` is `N` (1 on creation,
+1 per subsequent upsert) and whose `status`, `next_action` (and
`last_contact`) are the values of the last upsert. -/
theorem upsert_follow_up_count :
    ∀ (id : Nat) (s : List LeadRow) (ps : List (String × String × Nat))
      (st na : String) (now : Nat),
      rowsFor id s = [] →
      rowsFor id (upsertSeq id (ps ++ [(st, na, now)]) s) =
        [⟨id, st, ps.length + 1, now, na⟩] := by
  intro id s ps st na now h
  cases ps with
  | nil =>
    simpa [upsertSeq] using rowsFor_update_absent id s now st na h
  | cons q ps' =>
    have h1 := rowsFor_update_absent id s q.2.2 q.1 q.2.1 h
    have h2 := rowsFor_upsertSeq_present id st na now ps'
      (update_lead_state q.2.2 id q.1 q.2.1 s) _ h1
    simp only [upsertSeq, List.cons_append, List.append_eq]
    rw [h2]
    simp [List.cons.injEq, LeadRow.mk.injEq]
    all_goals omega

/-- Witness for C4: three upserts on an initially absent id. -/
theorem upsert_follow_up_count_witness :
    rowsFor 7 (upsertSeq 7
      [("approved", "a", 0), ("approved", "b", 1), ("approved_sent", "c", 2)]
      []) = [⟨7, "approved_sent", 3, 2, "c"⟩] :=
  upsert_follow_up_count 7 []
    [("approved", "a", 0), ("approved", "b", 1)] "approved_sent" "c" 2 rfl

/-! ### Helper lemmas for the automated driver -/

/-- The early returns of `auto_process_leads` coincide with running the
batch loop on the (possibly empty) filtered list. -/
lemma auto_process_eq_runLeads (cfg : AutoConfig) (now : Nat)
    (leads : List AutoLead) (s0 : List LeadRow) :
    auto_process_leads cfg now leads s0 =
      runLeads cfg now
        (leads.filter (fun l =>
          ! (s0.map (fun r => r.lead_id)).contains l.lead_id)) s0 0 := by
  unfold auto_process_leads
  by_cases h1 : leads = []
  · subst h1; rfl
  · rw [if_neg h1]
    show (if leads.filter (fun l =>
          ! (s0.map (fun r => r.lead_id)).contains l.lead_id) = []
        then (⟨s0, 0, false, []⟩ : RunResult)
        else runLeads cfg now (leads.filter (fun l =>
          ! (s0.map (fun r => r.lead_id)).contains l.lead_id)) s0 0) = _
    by_cases h2 : leads.filter (fun l =>
        ! (s0.map (fun r => r.lead_id)).contains l.lead_id) = []
    · rw [if_pos h2, h2]; rfl
    · rw [if_neg h2]

lemma processOne_err (cfg : AutoConfig) (now : Nat) (l : AutoLead)
    (tbl : List LeadRow) (sent : Nat) (h : l.err ≠ ErrStage.ok) :
    ∃ ev, processOne cfg now l tbl sent = .next tbl sent ev := by
  cases herr : l.err with
  | ok => exact absurd herr h
  | inProcessLead => exact ⟨[], by simp [processOne, herr]⟩
  | inSaveDraft =>
    exact ⟨[.classifyEv l.lead_id, .draftEv l.lead_id],
      by simp [processOne, herr]⟩

lemma processOne_next_sent (cfg : AutoConfig) (now : Nat) (l : AutoLead)
    (tbl : List LeadRow) (c : Nat) (t : List LeadRow) (s : Nat)
    (ev : List Event) (h : processOne cfg now l tbl c = .next t s ev) :
    s = c ∨ (s = c + 1 ∧ c + 1 < cfg.batchSize) := by
  cases herr : l.err with
  | ok =>
    simp only [processOne, herr] at h
    split at h
    · split at h
      · split at h
        · simp at h
        · simp only [StepRes.next.injEq] at h
          rename_i hge
          exact Or.inr ⟨h.2.1.symm, by omega⟩
      · simp only [StepRes.next.injEq] at h
        exact Or.inl h.2.1.symm
    · simp only [StepRes.next.injEq] at h
      exact Or.inl h.2.1.symm
  | inProcessLead =>
    simp only [processOne, herr, StepRes.next.injEq] at h
    exact Or.inl h.2.1.symm
  | inSaveDraft =>
    simp only [processOne, herr, StepRes.next.injEq] at h
    exact Or.inl h.2.1.symm

lemma processOne_halt (cfg : AutoConfig) (now : Nat) (l : AutoLead)
    (tbl : List LeadRow) (c : Nat) (t : List LeadRow) (s : Nat)
    (ev : List Event) (h : processOne cfg now l tbl c = .halt t s ev) :
    t = update_lead_state now l.lead_id "approved_sent" l.next_action tbl ∧
      s = c + 1 ∧ cfg.batchSize ≤ s := by
  cases herr : l.err with
  | ok =>
    simp only [processOne, herr] at h
    split at h
    · split at h
      · split at h
        · simp only [StepRes.halt.injEq] at h
          rename_i hge
          exact ⟨h.1.symm, h.2.1.symm, by omega⟩
        · simp at h
      · simp at h
    · simp at h
  | inProcessLead => simp [processOne, herr] at h
  | inSaveDraft => simp [processOne, herr] at h

lemma processOne_events_id (cfg : AutoConfig) (now : Nat) (l : AutoLead)
    (tbl : List LeadRow) (sent : Nat) :
    ∀ e ∈ (processOne cfg now l tbl sent).events, eventId e = l.lead_id := by
  intro e he
  cases herr : l.err with
  | ok =>
    simp only [processOne, herr] at he
    split at he
    · split at he
      · split at he
        · simp only [StepRes.events] at he
          simp at he
          rcases he with h | h | h | h <;> simp [h, eventId]
        · simp only [StepRes.events] at he
          simp at he
          rcases he with h | h | h | h <;> simp [h, eventId]
      · simp only [StepRes.events] at he
        simp at he
        rcases he with h | h | h | h <;> simp [h, eventId]
    · simp only [StepRes.events] at he
      simp at he
      rcases he with h | h | h <;> simp [h, eventId]
  | inProcessLead =>
    simp only [processOne, herr, StepRes.events] at he
    simp at he
  | inSaveDraft =>
    simp only [processOne, herr, StepRes.events] at he
    simp at he
    rcases he with h | h <;> simp [h, eventId]

lemma runLeads_sent_le (cfg : AutoConfig) (now : Nat) :
    ∀ (ls : List AutoLead) (tbl : List LeadRow) (c : Nat),
      c < cfg.batchSize → (runLeads cfg now ls tbl c).sent ≤ cfg.batchSize := by
  intro ls
  induction ls with
  | nil => intro tbl c hc; simpa [runLeads] using Nat.le_of_lt hc
  | cons l rest ih =>
    intro tbl c hc
    cases hp : processOne cfg now l tbl c with
    | halt t s ev =>
      have hs := processOne_halt cfg now l tbl c t s ev hp
      simp only [runLeads, hp]
      omega
    | next t s ev =>
      have hs := processOne_next_sent cfg now l tbl c t s ev hp
      simp only [runLeads, hp]
      rcases hs with h | ⟨h1, h2⟩
      · rw [h]; exact ih t c hc
      · rw [h1]; exact ih t (c + 1) h2

lemma runLeads_trace_id (cfg : AutoConfig) (now : Nat) :
    ∀ (ls : List AutoLead) (tbl : List LeadRow) (c : Nat),
      ∀ e ∈ (runLeads cfg now ls tbl c).trace, ∃ x ∈ ls, eventId e = x.lead_id := by
  intro ls
  induction ls with
  | nil => intro tbl c e he; simp [runLeads] at he
  | cons l rest ih =>
    intro tbl c e he
    cases hp : processOne cfg now l tbl c with
    | halt t s ev =>
      simp only [runLeads, hp] at he
      have := processOne_events_id cfg now l tbl c e (by rw [hp]; exact he)
      exact ⟨l, by simp, this⟩
    | next t s ev =>
      simp only [runLeads, hp] at he
      rcases List.mem_append.mp he with h | h
      · have := processOne_events_id cfg now l tbl c e (by rw [hp]; exact h)
        exact ⟨l, by simp, this⟩
      · obtain ⟨x, hx, hid⟩ := ih t s e h
        exact ⟨x, by simp [hx], hid⟩

/-- Claim C2, counterexample. With `EMAIL_BATCH_SIZE = 0` the
ceiling is checked only after a successful send has incremented the
counter, so a single auto-sent lead produces 1 successful send, which
exceeds the configured ceiling 0. -/
theorem batch_ceiling_counterexample :
    (auto_process_leads ⟨true, "Cold", 0⟩ 7 [⟨1, "Hot", "call", true, .ok⟩]
      []).sent = 1 ∧ ¬ (1 ≤ (0 : Nat)) := by
  refine ⟨by decide, by decide⟩

/-- Claim C2 as amended. For `EMAIL_BATCH_SIZE ≥ 1`, the number of
successful sends in an automated run never exceeds `EMAIL_BATCH_SIZE`;
whenever the counter reaches the ceiling the driver upserts the current
lead with status `approved_sent` and terminates the whole process at once;
and in the concrete scenario — `EMAIL_BATCH_SIZE = 2`, five leads all
routed to successful sends — exactly 2 sends occur, the run exits early,
the state table afterwards holds exactly the 2 rows of the sent leads,
and the trace shows leads 3–5 were never touched. -/
theorem batch_ceiling :
    (∀ (cfg : AutoConfig) (now : Nat) (leads : List AutoLead)
      (s0 : List LeadRow), 1 ≤ cfg.batchSize →
      (auto_process_leads cfg now leads s0).sent ≤ cfg.batchSize) ∧
    (∀ (cfg : AutoConfig) (now : Nat) (l : AutoLead) (tbl : List LeadRow)
      (c : Nat) (t : List LeadRow) (s : Nat) (ev : List Event),
      processOne cfg now l tbl c = .halt t s ev →
      t = update_lead_state now l.lead_id "approved_sent" l.next_action tbl ∧
        s = c + 1 ∧ cfg.batchSize ≤ s) ∧
    (auto_process_leads ⟨true, "Cold", 2⟩ 7
      [⟨1, "Hot", "a", true, .ok⟩, ⟨2, "Hot", "b", true, .ok⟩,
       ⟨3, "Hot", "c", true, .ok⟩, ⟨4, "Hot", "d", true, .ok⟩,
       ⟨5, "Hot", "e", true, .ok⟩] [] =
      ⟨[⟨1, "approved_sent", 1, 7, "a"⟩, ⟨2, "approved_sent", 1, 7, "b"⟩], 2,
        true,
        [.classifyEv 1, .draftEv 1, .saveDraftEv 1, .sendEv 1,
         .classifyEv 2, .draftEv 2, .saveDraftEv 2, .sendEv 2]⟩) := by
  refine ⟨fun cfg now leads s0 hb => ?_, processOne_halt, by decide⟩
  rw [auto_process_eq_runLeads]
  exact runLeads_sent_le cfg now _ s0 0 hb

/-- Witness for C2 at the concrete five-lead scenario. -/
theorem batch_ceiling_witness :
    (auto_process_leads ⟨true, "Cold", 2⟩ 7
      [⟨1, "Hot", "a", true, .ok⟩, ⟨2, "Hot", "b", true, .ok⟩,
       ⟨3, "Hot", "c", true, .ok⟩, ⟨4, "Hot", "d", true, .ok⟩,
       ⟨5, "Hot", "e", true, .ok⟩] []).sent ≤ 2 :=
  batch_ceiling.1 ⟨true, "Cold", 2⟩ 7
    [⟨1, "Hot", "a", true, .ok⟩, ⟨2, "Hot", "b", true, .ok⟩,
     ⟨3, "Hot", "c", true, .ok⟩, ⟨4, "Hot", "d", true, .ok⟩,
     ⟨5, "Hot", "e", true, .ok⟩] [] (by decide)

/-- Claim C3. A lead whose `lead_id` is already in the state table at batch
start triggers no classifier, drafter, draft-save or sender invocation in
an automated run; consequently a second run over the table produced by a
first run makes no further calls for any lead the first run wrote. -/
theorem idempotent_skip :
    (∀ (cfg : AutoConfig) (now : Nat) (leads : List AutoLead)
      (s0 : List LeadRow) (id : Nat), id ∈ s0.map (fun r => r.lead_id) →
      ∀ e ∈ (auto_process_leads cfg now leads s0).trace, eventId e ≠ id) ∧
    (∀ (cfg₁ : AutoConfig) (now₁ : Nat) (leads₁ : List AutoLead)
      (cfg₂ : AutoConfig) (now₂ : Nat) (leads₂ : List AutoLead)
      (s0 : List LeadRow) (id : Nat),
      id ∈ (auto_process_leads cfg₁ now₁ leads₁ s0).table.map
        (fun r => r.lead_id) →
      ∀ e ∈ (auto_process_leads cfg₂ now₂ leads₂
          (auto_process_leads cfg₁ now₁ leads₁ s0).table).trace,
        eventId e ≠ id) := by
  have main : ∀ (cfg : AutoConfig) (now : Nat) (leads : List AutoLead)
      (s0 : List LeadRow) (id : Nat), id ∈ s0.map (fun r => r.lead_id) →
      ∀ e ∈ (auto_process_leads cfg now leads s0).trace, eventId e ≠ id := by
    intro cfg now leads s0 id hid e he
    rw [auto_process_eq_runLeads] at he
    obtain ⟨x, hx, hxid⟩ := runLeads_trace_id cfg now _ s0 0 e he
    have hpred := List.of_mem_filter hx
    intro hcontr
    rw [← hxid, hcontr] at hpred
    simp [List.contains] at hpred
    obtain ⟨r, hr, hrid⟩ := by simpa using hid
    exact hpred r hr hrid
  exact ⟨main, fun cfg₁ now₁ leads₁ cfg₂ now₂ leads₂ s0 id hid =>
    main cfg₂ now₂ leads₂ _ id hid⟩

/-- Witness for C3: a lead already recorded in state is never touched. -/
theorem idempotent_skip_witness :
    ∀ e ∈ (auto_process_leads ⟨true, "Hot", 2⟩ 9 [⟨3, "Hot", "call", true, .ok⟩]
      [⟨3, "approved", 1, 0, "call"⟩]).trace, eventId e ≠ 3 :=
  idempotent_skip.1 ⟨true, "Hot", 2⟩ 9 [⟨3, "Hot", "call", true, .ok⟩]
    [⟨3, "approved", 1, 0, "call"⟩] 3 (by decide)

lemma runLeads_err_middle (cfg : AutoConfig) (now : Nat) (l : AutoLead)
    (h : l.err ≠ ErrStage.ok) :
    ∀ (pre post : List AutoLead) (tbl : List LeadRow) (c : Nat),
      (runLeads cfg now (pre ++ l :: post) tbl c).table =
        (runLeads cfg now (pre ++ post) tbl c).table ∧
      (runLeads cfg now (pre ++ l :: post) tbl c).sent =
        (runLeads cfg now (pre ++ post) tbl c).sent ∧
      (runLeads cfg now (pre ++ l :: post) tbl c).exited =
        (runLeads cfg now (pre ++ post) tbl c).exited := by
  intro pre
  induction pre with
  | nil =>
    intro post tbl c
    obtain ⟨ev, hev⟩ := processOne_err cfg now l tbl c h
    simp [runLeads, hev]
  | cons x pre' ih =>
    intro post tbl c
    cases hp : processOne cfg now x tbl c with
    | halt t s ev => simp [runLeads, hp]
    | next t s ev =>
      simp only [List.cons_append, runLeads, hp]
      exact ih post t s

lemma update_lead_state_ids (now id : Nat) (st na : String)
    (tbl : List LeadRow) (i : Nat)
    (h : i ∈ (update_lead_state now id st na tbl).map (fun r => r.lead_id)) :
    i ∈ tbl.map (fun r => r.lead_id) ∨ i = id := by
  unfold update_lead_state at h
  split at h
  · rw [List.map_map] at h
    left
    have : ((fun r : LeadRow => r.lead_id) ∘ (fun r : LeadRow =>
        if r.lead_id == id then
          { r with status := st, follow_up_count := r.follow_up_count + 1,
                   last_contact := now, next_action := na }
        else r)) = (fun r : LeadRow => r.lead_id) := by
      funext r
      by_cases hid : r.lead_id = id <;> simp [hid]
    rwa [this] at h
  · rw [List.map_append] at h
    rcases List.mem_append.mp h with h' | h'
    · exact Or.inl h'
    · simp at h'
      exact Or.inr h'

lemma processOne_tbl_ids (cfg : AutoConfig) (now : Nat) (l : AutoLead)
    (tbl : List LeadRow) (c : Nat) (i : Nat)
    (h : i ∈ (processOne cfg now l tbl c).tblOf.map (fun r => r.lead_id)) :
    i ∈ tbl.map (fun r => r.lead_id) ∨ i = l.lead_id := by
  cases herr : l.err with
  | ok =>
    simp only [processOne, herr] at h
    split at h
    · split at h
      · split at h
        · exact update_lead_state_ids now l.lead_id _ _ tbl i
            (by simpa [StepRes.tblOf] using h)
        · exact update_lead_state_ids now l.lead_id _ _ tbl i
            (by simpa [StepRes.tblOf] using h)
      · exact update_lead_state_ids now l.lead_id _ _ tbl i
          (by simpa [StepRes.tblOf] using h)
    · exact update_lead_state_ids now l.lead_id _ _ tbl i
        (by simpa [StepRes.tblOf] using h)
  | inProcessLead =>
    simp only [processOne, herr, StepRes.tblOf] at h
    exact Or.inl h
  | inSaveDraft =>
    simp only [processOne, herr, StepRes.tblOf] at h
    exact Or.inl h

lemma runLeads_table_ids (cfg : AutoConfig) (now : Nat) :
    ∀ (ls : List AutoLead) (tbl : List LeadRow) (c : Nat) (i : Nat),
      i ∈ (runLeads cfg now ls tbl c).table.map (fun r => r.lead_id) →
      i ∈ tbl.map (fun r => r.lead_id) ∨ ∃ x ∈ ls, x.lead_id = i := by
  intro ls
  induction ls with
  | nil => intro tbl c i h; simp only [runLeads] at h; exact Or.inl h
  | cons l rest ih =>
    intro tbl c i h
    cases hp : processOne cfg now l tbl c with
    | halt t s ev =>
      simp only [runLeads, hp] at h
      have := processOne_tbl_ids cfg now l tbl c i (by rw [hp]; exact h)
      rcases this with h' | h'
      · exact Or.inl h'
      · exact Or.inr ⟨l, by simp, h'.symm⟩
    | next t s ev =>
      simp only [runLeads, hp] at h
      rcases ih t s i h with h' | ⟨x, hx, hxi⟩
      · have := processOne_tbl_ids cfg now l tbl c i (by rw [hp]; exact h')
        rcases this with h'' | h''
        · exact Or.inl h''
        · exact Or.inr ⟨l, by simp, h''.symm⟩
      · exact Or.inr ⟨x, by simp [hx], hxi⟩

lemma auto_err_components (cfg : AutoConfig) (now : Nat)
    (pre post : List AutoLead) (l : AutoLead) (s0 : List LeadRow)
    (herr : l.err ≠ ErrStage.ok) :
    (auto_process_leads cfg now (pre ++ l :: post) s0).table =
        (auto_process_leads cfg now (pre ++ post) s0).table ∧
      (auto_process_leads cfg now (pre ++ l :: post) s0).sent =
        (auto_process_leads cfg now (pre ++ post) s0).sent ∧
      (auto_process_leads cfg now (pre ++ l :: post) s0).exited =
        (auto_process_leads cfg now (pre ++ post) s0).exited := by
  rw [auto_process_eq_runLeads, auto_process_eq_runLeads]
  rw [List.filter_append, List.filter_append, List.filter_cons]
  by_cases hpred :
      (! (s0.map (fun r => r.lead_id)).contains l.lead_id) = true
  · rw [if_pos hpred]
    exact runLeads_err_middle cfg now l herr _ _ s0 0
  · rw [if_neg hpred]
    exact ⟨rfl, rfl, rfl⟩

/-- Claim C7. An exception raised while processing one lead is absorbed at
the batch-loop level: the run's final table, send counter and exit flag
are the same as if the erroring lead were absent from the input (so the
batch continues with the next lead), and the erroring lead's entry is
left unwritten — its id is absent from the final table whenever it was
absent from the initial one and no other lead shares it. -/
theorem per_lead_error_isolation :
    ∀ (cfg : AutoConfig) (now : Nat) (pre post : List AutoLead) (l : AutoLead)
      (s0 : List LeadRow), l.err ≠ ErrStage.ok →
      ((auto_process_leads cfg now (pre ++ l :: post) s0).table =
          (auto_process_leads cfg now (pre ++ post) s0).table ∧
        (auto_process_leads cfg now (pre ++ l :: post) s0).sent =
          (auto_process_leads cfg now (pre ++ post) s0).sent ∧
        (auto_process_leads cfg now (pre ++ l :: post) s0).exited =
          (auto_process_leads cfg now (pre ++ post) s0).exited) ∧
      (l.lead_id ∉ s0.map (fun r => r.lead_id) →
        (∀ x ∈ pre ++ post, x.lead_id ≠ l.lead_id) →
        l.lead_id ∉ (auto_process_leads cfg now (pre ++ l :: post) s0).table.map
          (fun r => r.lead_id)) := by
  intro cfg now pre post l s0 herr
  refine ⟨auto_err_components cfg now pre post l s0 herr, ?_⟩
  intro hid hothers hmem
  rw [(auto_err_components cfg now pre post l s0 herr).1,
    auto_process_eq_runLeads] at hmem
  rcases runLeads_table_ids cfg now _ s0 0 l.lead_id hmem with h | ⟨x, hx, hxi⟩
  · exact hid h
  · exact hothers x (List.mem_of_mem_filter hx) hxi

/-- Witness for C7: one erroring lead between two good ones leaves no row
of its own in the final table. -/
theorem per_lead_error_isolation_witness :
    (2 : Nat) ∉ (auto_process_leads ⟨false, "Hot", 2⟩ 4
      ([⟨1, "Hot", "a", true, .ok⟩] ++ ⟨2, "Hot", "b", true, .inSaveDraft⟩ ::
        [⟨3, "Hot", "c", true, .ok⟩]) []).table.map (fun r => r.lead_id) :=
  (per_lead_error_isolation ⟨false, "Hot", 2⟩ 4 [⟨1, "Hot", "a", true, .ok⟩]
    [⟨3, "Hot", "c", true, .ok⟩] ⟨2, "Hot", "b", true, .inSaveDraft⟩ []
    (by decide)).2 (by decide) (by decide)

lemma countSendEv_append (id : Nat) (a b : List Event) :
    countSendEv id (a ++ b) = countSendEv id a + countSendEv id b := by
  simp [countSendEv, List.filter_append]

lemma processOne_countSend (cfg : AutoConfig) (now : Nat) (l : AutoLead)
    (tbl : List LeadRow) (c : Nat) (id : Nat) :
    countSendEv id (processOne cfg now l tbl c).events ≤
      if l.lead_id = id then 1 else 0 := by
  cases herr : l.err with
  | ok =>
    simp only [processOne, herr]
    split
    · split
      · split
        · by_cases hid : l.lead_id = id <;>
            simp [countSendEv, StepRes.events, isSendEv, eventId, hid]
        · by_cases hid : l.lead_id = id <;>
            simp [countSendEv, StepRes.events, isSendEv, eventId, hid]
      · by_cases hid : l.lead_id = id <;>
          simp [countSendEv, StepRes.events, isSendEv, eventId, hid]
    · by_cases hid : l.lead_id = id <;>
        simp [countSendEv, StepRes.events, isSendEv, eventId, hid]
  | inProcessLead =>
    simp [processOne, herr, countSendEv, StepRes.events]
  | inSaveDraft =>
    simp [processOne, herr, countSendEv, StepRes.events, isSendEv]

lemma runLeads_countSend (cfg : AutoConfig) (now : Nat) (id : Nat) :
    ∀ (ls : List AutoLead) (tbl : List LeadRow) (c : Nat),
      countSendEv id (runLeads cfg now ls tbl c).trace ≤
        ls.countP (fun x => x.lead_id == id) := by
  intro ls
  induction ls with
  | nil => intro tbl c; simp [runLeads, countSendEv]
  | cons l rest ih =>
    intro tbl c
    have hstep := processOne_countSend cfg now l tbl c id
    rw [List.countP_cons]
    cases hp : processOne cfg now l tbl c with
    | halt t s ev =>
      rw [hp] at hstep
      simp only [runLeads, hp]
      simp only [StepRes.events] at hstep
      by_cases hid : l.lead_id = id <;> simp [hid] at hstep ⊢ <;> omega
    | next t s ev =>
      rw [hp] at hstep
      simp only [runLeads, hp]
      simp only [StepRes.events] at hstep
      rw [countSendEv_append]
      have hr := ih t s
      by_cases hid : l.lead_id = id <;> simp [hid] at hstep ⊢ <;> omega

/-- Claim C8. The sender `send_email` reports failure as a boolean: it is `false` when
credentials are unconfigured and `false` on any SMTP/other exception; the
automated driver invokes it at most once per lead per run (given the
batch's unique-`lead_id` invariant); and on a `false` result the lead is
recorded as `approved` — not `approved_sent` — while the loop continues
with the next lead (no retry of the send). -/
theorem send_email_no_retry :
    (∀ smtp, send_email false smtp = false) ∧
    (∀ msg, send_email true (Except.error msg) = false) ∧
    (∀ (cfg : AutoConfig) (now : Nat) (leads : List AutoLead)
      (s0 : List LeadRow) (id : Nat),
      (leads.map (fun l => l.lead_id)).Nodup →
      countSendEv id (auto_process_leads cfg now leads s0).trace ≤ 1) ∧
    (∀ (cfg : AutoConfig) (now : Nat) (l : AutoLead) (tbl : List LeadRow)
      (c : Nat), l.err = ErrStage.ok →
      shouldSend cfg.autoSend cfg.threshold l.category = true →
      l.sendOk = false →
      processOne cfg now l tbl c =
        .next (update_lead_state now l.lead_id "approved" l.next_action tbl) c
          [.classifyEv l.lead_id, .draftEv l.lead_id, .saveDraftEv l.lead_id,
           .sendEv l.lead_id]) := by
  refine ⟨fun smtp => rfl, fun msg => rfl, ?_, ?_⟩
  · intro cfg now leads s0 id hnd
    rw [auto_process_eq_runLeads]
    have h1 := runLeads_countSend cfg now id
      (leads.filter (fun l => ! (s0.map (fun r => r.lead_id)).contains l.lead_id))
      s0 0
    rw [List.countP_filter] at h1
    have h2 : leads.countP (fun x => x.lead_id == id) ≤ 1 := by
      have hcount := List.nodup_iff_count_le_one.mp hnd id
      rw [List.count_eq_countP, List.countP_map] at hcount
      simpa [Function.comp] using hcount
    have h3 : leads.countP (fun x => (x.lead_id == id) &&
        (! (s0.map (fun r => r.lead_id)).contains x.lead_id)) ≤
        leads.countP (fun x => x.lead_id == id) :=
      List.countP_mono_left (fun x _ hx => by
        simp at hx; simp [hx.1])
    omega
  · intro cfg now l tbl c herr hflag hsOk
    simp [processOne, herr, hflag, hsOk]

/-- Witness for C8: a failed send in a two-lead batch marks the lead
`approved` and the run continues; sends stay at most one per lead. -/
theorem send_email_no_retry_witness :
    countSendEv 1 (auto_process_leads ⟨true, "Cold", 5⟩ 2
      [⟨1, "Hot", "a", false, .ok⟩, ⟨2, "Hot", "b", true, .ok⟩] []).trace ≤ 1 ∧
    processOne ⟨true, "Cold", 5⟩ 2 ⟨1, "Hot", "a", false, .ok⟩ [] 0 =
      .next (update_lead_state 2 1 "approved" "a" []) 0
        [.classifyEv 1, .draftEv 1, .saveDraftEv 1, .sendEv 1] :=
  ⟨send_email_no_retry.2.2.1 ⟨true, "Cold", 5⟩ 2
      [⟨1, "Hot", "a", false, .ok⟩, ⟨2, "Hot", "b", true, .ok⟩] [] 1 (by decide),
   send_email_no_retry.2.2.2 ⟨true, "Cold", 5⟩ 2 ⟨1, "Hot", "a", false, .ok⟩
      [] 0 rfl (by decide) rfl⟩

end LeadAgent
